import Mathlib

/-!
Shallow embedding of the shot-planning core of the robotic billiards
program: `isPathObstructed` and `selectClearShots` from `ShotPlanner.cpp`,
and the best-shot selection and strike-command stage of `main.cpp`.

Ball, pocket and obstacle coordinates are modelled as lists of reals (the
C++ uses `std::vector<double>`); every element access the C++ performs is
modelled in the `Option` monad, with `none` standing for an out-of-bounds
access (undefined behaviour in the C++).
-/

namespace Billiards

open Classical

noncomputable section

/-- Modelled from the spec: `GeometryUtils.h` is not among the provided
sources; §4.1 gives `magnitude(dx, dy) = sqrt(dx^2 + dy^2)`. -/
def mag (dx dy : ℝ) : ℝ := Real.sqrt (dx ^ 2 + dy ^ 2)

/-- Modelled from the spec: `GeometryUtils.h` is not among the provided
sources; §4.1 gives `dis` as the signed perpendicular distance from
`(px, py)` to the infinite line through `(ox, oy)` with direction
`(dx, dy)`, via the cross-product-over-magnitude identity. -/
def dis (dx dy ox oy px py : ℝ) : ℝ :=
  (dx * (py - oy) - dy * (px - ox)) / mag dx dy

/-- Modelled from the spec: `GeometryUtils.h` is not among the provided
sources; §4.1 gives `cosineOfAngle(ax, ay, bx, by) = dot(a,b)/(|a||b|)`. -/
def COS_VAL (ax ay bx by' : ℝ) : ℝ :=
  (ax * bx + ay * by') / (mag ax ay * mag bx by')

/-- One iteration of the obstacle loop of `isPathObstructed`
(ShotPlanner.cpp lines 17-31): reads `obs[0]` and `obs[1]`, skips an
obstacle exactly coincident with either endpoint, and otherwise tests the
perpendicular distance against the radius and the obstacle's
distance-from-start against the start-to-end distance. -/
def obstructedBy (x1 y1 x2 y2 r : ℝ) (obs : List ℝ) : Option Bool := do
  let ox ← obs.get? 0
  let oy ← obs.get? 1
  let d := dis (x2 - x1) (y2 - y1) x1 y1 ox oy
  if (ox = x2 ∧ oy = y2) ∨ (ox = x1 ∧ oy = y1) then
    return false
  else if |d| < r then
    if mag (ox - x1) (oy - y1) < mag (x2 - x1) (y2 - y1) then
      return true
    else
      return false
  else
    return false

/-- `isPathObstructed` (ShotPlanner.cpp lines 12-33): scans the obstacle
list in order and returns `true` at the first obstructing obstacle. -/
def isPathObstructed (x1 y1 x2 y2 : ℝ) (obstacles : List (List ℝ)) (r : ℝ) :
    Option Bool :=
  match obstacles with
  | [] => some false
  | obs :: rest => do
      let b ← obstructedBy x1 y1 x2 y2 r obs
      if b then return true else isPathObstructed x1 y1 x2 y2 rest r

/-- Sequences a loop body over a list in the `Option` monad, concatenating
the emitted entries in loop order; `none` aborts the whole computation. -/
def collectM {α β : Type} (f : α → Option (List β)) : List α → Option (List β)
  | [] => some []
  | a :: rest => do
      let x ← f a
      let xs ← collectM f rest
      return x ++ xs

/-- Body of the first double loop of `selectClearShots` (ShotPlanner.cpp
lines 47-53): a `(child, hole)` pair is recorded when the child-to-hole
path is unobstructed by the object-ball set. -/
def step1Entry (childballs : List (List ℝ)) (r : ℝ) (child hole : List ℝ) :
    Option (List (List ℝ × List ℝ)) := do
  let cx ← child.get? 0
  let cy ← child.get? 1
  let hx ← hole.get? 0
  let hy ← hole.get? 1
  let b ← isPathObstructed cx cy hx hy childballs r
  if b then return [] else return [(child, hole)]

/-- First double loop of `selectClearShots`: the ball-to-pocket visibility
set `child_hole_result`. -/
def step1 (holes childballs : List (List ℝ)) (r : ℝ) :
    Option (List (List ℝ × List ℝ)) :=
  collectM (fun child => collectM (fun hole => step1Entry childballs r child hole) holes)
    childballs

/-- Body of the second double loop of `selectClearShots` (ShotPlanner.cpp
lines 54-64): if the child-to-cue path is unobstructed and the strike
angle is below the 110-degree bound, an entry is recorded. The C++ at
line 60 passes the whole `cueballs` list where a single coordinate vector
is expected, which does not typecheck against the declared element type
`std::pair<std::vector<double>, std::vector<double>>`; following the
surrounding comments ("cue_ball is the cue ball"), it is embedded as
storing `(cueballs[0], child)`. -/
def step2Entry (cueballs childballs : List (List ℝ)) (r : ℝ) (child hole : List ℝ) :
    Option (List (List ℝ × List ℝ)) := do
  let cx ← child.get? 0
  let cy ← child.get? 1
  let cue ← cueballs.get? 0
  let mx ← cue.get? 0
  let my ← cue.get? 1
  let b ← isPathObstructed cx cy mx my childballs r
  if b then
    return []
  else do
    let hx ← hole.get? 0
    let hy ← hole.get? 1
    let angle2 := |Real.arccos (COS_VAL (cx - mx) (cy - my) (hx - cx) (hy - cy))| *
      180 / 3.1415926
    if angle2 < 110 then return [(cue, child)] else return []

/-- Second double loop of `selectClearShots`: the cue-to-ball visibility
set `cue_child_result`. -/
def step2 (cueballs holes childballs : List (List ℝ)) (r : ℝ) :
    Option (List (List ℝ × List ℝ)) :=
  collectM (fun child => collectM (fun hole => step2Entry cueballs childballs r child hole) holes)
    childballs

/-- The per-coordinate comparison of the matching step (ShotPlanner.cpp
lines 82-89): equal sizes and every coordinate within `1e-9`. -/
def isSameB (a b : List ℝ) : Bool :=
  if a.length = b.length then
    if ∀ i, i < a.length → |a.getD i 0 - b.getD i 0| ≤ 1 / 1000000000 then true
    else false
  else false

/-- Matching step of `selectClearShots` (ShotPlanner.cpp lines 66-100):
keep a step-1 pair whose child ball coincides, by `isSameB`, with the
first component of some step-2 entry. The C++ scan stops at the first
matching entry, and the appended value does not depend on which entry
matched, so the scan is an existence test. -/
def step3 (chr ccr : List (List ℝ × List ℝ)) : List (List ℝ × List ℝ) :=
  chr.filter fun ch => ccr.any fun e => isSameB ch.1 e.1

/-- `selectClearShots` (ShotPlanner.cpp lines 35-103). -/
def selectClearShots (cueballs holes childballs : List (List ℝ)) (r : ℝ) :
    Option (List (List ℝ × List ℝ)) := do
  let chr ← step1 holes childballs r
  let ccr ← step2 cueballs holes childballs r
  return step3 chr ccr

/-- Modelled from the spec: the `FlipPlanner` sources are not provided;
the bank-shot candidate record carries the fields that `main.cpp` uses
(spec §4.4 and §6). -/
structure FlipShot where
  target_coords : List ℝ
  hole_coords : List ℝ
  total_distance : ℝ

/-- Distance score of a direct candidate (main.cpp lines 51-55):
ball-to-hole length plus cue-to-ball length. -/
def shotDist (cueball : List (List ℝ)) (shot : List ℝ × List ℝ) : Option ℝ := do
  let bx ← shot.1.get? 0
  let hx ← shot.2.get? 0
  let by' ← shot.1.get? 1
  let hy ← shot.2.get? 1
  let cue ← cueball.get? 0
  let cx ← cue.get? 0
  let cy ← cue.get? 1
  return mag (bx - hx) (by' - hy) + mag (cx - bx) (cy - by')

/-- Direct-candidate selection loop (main.cpp lines 49-62); the
accumulator holds `(target_ball, target_hole, min_dist)`, and is `none`
before the first update (`min_dist` starts at `DBL_MAX`, so the first
candidate always updates it). -/
def selectDirectLoop (cueball : List (List ℝ)) :
    List (List ℝ × List ℝ) → Option (List ℝ × List ℝ × ℝ) →
    Option (Option (List ℝ × List ℝ × ℝ))
  | [], acc => some acc
  | s :: rest, acc => do
      let d ← shotDist cueball s
      match acc with
      | none => selectDirectLoop cueball rest (some (s.1, s.2, d))
      | some (tb, th, md) =>
          if d < md then selectDirectLoop cueball rest (some (s.1, s.2, d))
          else selectDirectLoop cueball rest (some (tb, th, md))

/-- Flip-candidate selection loop (main.cpp lines 69-75): `best` starts at
`flip_shots[0]`, and `total_distance` (initialised to 0 at line 46) is
updated only when a strictly better candidate than the current best is
found. -/
def selectFlipLoop : List FlipShot → FlipShot → ℝ → FlipShot × ℝ
  | [], best, td => (best, td)
  | fs :: rest, best, td =>
      if fs.total_distance < best.total_distance then
        selectFlipLoop rest fs fs.total_distance
      else
        selectFlipLoop rest best td

/-- Home pose of main.cpp line 85. -/
def originPose : Fin 6 → ℝ := ![90, 0, 0, 0, -90, 0]

/-- Hardware commands issued by main.cpp lines 119-121. -/
inductive HWCmd : Type
  | move (pose : Fin 6 → ℝ) (distance : ℝ)
  | strike (distance : ℝ)
  | home (pose : Fin 6 → ℝ)

/-- Strike-pose computation of main.cpp lines 88-117. -/
def hitPose (cx cy tb0 tb1 th0 th1 : ℝ) : Fin 6 → ℝ :=
  let rel_x := th0 - tb0
  let rel_y := th1 - tb1
  let rel_dis := Real.sqrt (rel_x ^ 2 + rel_y ^ 2)
  let vector_x := rel_x / rel_dis
  let vector_y := rel_y / rel_dis
  let hit_x := cx + vector_x * (15 + 3)
  let hit_y := cy + vector_y * (15 + 3)
  let inner_product := vector_x * 0 + vector_y * (-1) + 0 * 0
  let theta := |Real.arccos inner_product| * 180 / Real.pi
  ![hit_x, hit_y, 0, 0, 0, if vector_x > 0 then -90 + theta else -90 - theta]

/-- Strike stage of main.cpp lines 85-121: reads the selected target and
hole coordinates and the cue position, computes the hit pose, and issues
the move, strike and return-to-home commands, carrying `total_distance`
into the move and strike commands. -/
def strikeStage (cueball : List (List ℝ)) (tb th : List ℝ) (td : ℝ) :
    Option (Int × List HWCmd) := do
  let th0 ← th.get? 0
  let tb0 ← tb.get? 0
  let th1 ← th.get? 1
  let tb1 ← tb.get? 1
  let cue ← cueball.get? 0
  let cx ← cue.get? 0
  let cy ← cue.get? 1
  return (0, [HWCmd.move (hitPose cx cy tb0 tb1 th0 th1) td, HWCmd.strike td,
    HWCmd.home originPose])

/-- Selection and execution flow of main.cpp lines 44-122, parametrised by
the outputs of the two candidate generators. Result `none` models an
out-of-bounds vector access; otherwise the pair is the exit signal (`-1`
for the no-feasible-shot failure, `0` for success) together with the list
of hardware commands issued. When no direct candidate updates the
accumulator the C++ leaves `target_ball`/`target_hole` as empty vectors
and `total_distance` at 0, which the strike stage turns into an
out-of-bounds read. -/
def mainPlan (cueball : List (List ℝ)) (valid_shots : List (List ℝ × List ℝ))
    (flip_shots : List FlipShot) : Option (Int × List HWCmd) :=
  match valid_shots with
  | _ :: _ => do
      let acc ← selectDirectLoop cueball valid_shots none
      match acc with
      | some (tb, th, td) => strikeStage cueball tb th td
      | none => strikeStage cueball [] [] 0
  | [] =>
      match flip_shots with
      | [] => some (-1, [])
      | f0 :: _ =>
          let bt := selectFlipLoop flip_shots f0 0
          strikeStage cueball bt.1.target_coords bt.1.hole_coords bt.2

/-! ### Helper lemmas about the geometry kernel -/

lemma mag_eq_of_sq {a b c : ℝ} (hc : 0 ≤ c) (h : a ^ 2 + b ^ 2 = c ^ 2) :
    mag a b = c := by rw [mag, h, Real.sqrt_sq hc]

lemma mag_lt_mag {a b c d : ℝ} (h : a ^ 2 + b ^ 2 < c ^ 2 + d ^ 2) :
    mag a b < mag c d := Real.sqrt_lt_sqrt (by positivity) h

lemma mag_le_mag {a b c d : ℝ} (h : a ^ 2 + b ^ 2 ≤ c ^ 2 + d ^ 2) :
    mag a b ≤ mag c d := Real.sqrt_le_sqrt h

lemma mag_neg_neg (a b : ℝ) : mag (-a) (-b) = mag a b := by
  rw [mag, mag, neg_pow, neg_pow]; norm_num

lemma COS_VAL_neg_neg (ax ay bx by' : ℝ) :
    COS_VAL (-ax) (-ay) (-bx) (-by') = COS_VAL ax ay bx by' := by
  rw [COS_VAL, COS_VAL, mag_neg_neg, mag_neg_neg]; ring_nf

/-! ### Characterisation of the obstruction detector -/

/-- The description of an obstructing obstacle: not exactly coincident
with either endpoint, within the clearance radius of the infinite line,
and closer to the start than the start-to-end distance. -/
def blocksPath (x1 y1 x2 y2 r ox oy : ℝ) : Prop :=
  ¬((ox = x2 ∧ oy = y2) ∨ (ox = x1 ∧ oy = y1)) ∧
    |dis (x2 - x1) (y2 - y1) x1 y1 ox oy| < r ∧
    mag (ox - x1) (oy - y1) < mag (x2 - x1) (y2 - y1)

lemma obstructedBy_cons_cons (x1 y1 x2 y2 r a b : ℝ) (t : List ℝ) :
    obstructedBy x1 y1 x2 y2 r (a :: b :: t) =
      if (a = x2 ∧ b = y2) ∨ (a = x1 ∧ b = y1) then some false
      else if |dis (x2 - x1) (y2 - y1) x1 y1 a b| < r then
        if mag (a - x1) (b - y1) < mag (x2 - x1) (y2 - y1) then some true else some false
      else some false := by
  simp [obstructedBy]

lemma obstructedBy_isSome (x1 y1 x2 y2 r : ℝ) (obs : List ℝ) (h : 2 ≤ obs.length) :
    (obstructedBy x1 y1 x2 y2 r obs).isSome := by
  match obs, h with
  | a :: b :: t, _ =>
    rw [obstructedBy_cons_cons]
    split_ifs <;> rfl

lemma obstructedBy_eq_true_iff (x1 y1 x2 y2 r : ℝ) (obs : List ℝ) (h : 2 ≤ obs.length) :
    obstructedBy x1 y1 x2 y2 r obs = some true ↔
      blocksPath x1 y1 x2 y2 r (obs.getD 0 0) (obs.getD 1 0) := by
  match obs, h with
  | a :: b :: t, _ =>
    rw [obstructedBy_cons_cons]
    simp only [List.getD_cons_zero, List.getD_cons_succ]
    split_ifs <;> simp_all [blocksPath]

lemma isPathObstructed_nil (x1 y1 x2 y2 r : ℝ) :
    isPathObstructed x1 y1 x2 y2 [] r = some false := rfl

lemma isPathObstructed_cons (x1 y1 x2 y2 r : ℝ) (o : List ℝ) (rest : List (List ℝ)) :
    isPathObstructed x1 y1 x2 y2 (o :: rest) r =
      (obstructedBy x1 y1 x2 y2 r o).bind
        (fun b => if b then some true else isPathObstructed x1 y1 x2 y2 rest r) := rfl

lemma isPathObstructed_isSome (x1 y1 x2 y2 r : ℝ) (obstacles : List (List ℝ))
    (hwf : ∀ o ∈ obstacles, 2 ≤ o.length) :
    (isPathObstructed x1 y1 x2 y2 obstacles r).isSome := by
  induction obstacles with
  | nil => rfl
  | cons o rest ih =>
      obtain ⟨b, hb⟩ := Option.isSome_iff_exists.mp
        (obstructedBy_isSome x1 y1 x2 y2 r o (hwf o (List.mem_cons_self o rest)))
      rw [isPathObstructed_cons, hb]
      cases b
      · simpa using ih (fun a ha => hwf a (List.mem_cons_of_mem o ha))
      · rfl

lemma isPathObstructed_eq_true_iff (x1 y1 x2 y2 r : ℝ) (obstacles : List (List ℝ))
    (hwf : ∀ o ∈ obstacles, 2 ≤ o.length) :
    isPathObstructed x1 y1 x2 y2 obstacles r = some true ↔
      ∃ o ∈ obstacles, blocksPath x1 y1 x2 y2 r (o.getD 0 0) (o.getD 1 0) := by
  induction obstacles with
  | nil => simp [isPathObstructed_nil]
  | cons o rest ih =>
      have h2 : 2 ≤ o.length := hwf o (List.mem_cons_self o rest)
      have ihr := ih (fun a ha => hwf a (List.mem_cons_of_mem o ha))
      obtain ⟨b, hb⟩ := Option.isSome_iff_exists.mp
        (obstructedBy_isSome x1 y1 x2 y2 r o h2)
      rw [isPathObstructed_cons, hb]
      cases b
      · have hnb : ¬ blocksPath x1 y1 x2 y2 r (o.getD 0 0) (o.getD 1 0) := by
          rw [← obstructedBy_eq_true_iff x1 y1 x2 y2 r o h2, hb]
          simp
        have hred : (some false).bind
            (fun b => if b then some true else isPathObstructed x1 y1 x2 y2 rest r) =
            isPathObstructed x1 y1 x2 y2 rest r := rfl
        rw [hred, ihr]
        constructor
        · rintro ⟨a, ha, h⟩
          exact ⟨a, List.mem_cons_of_mem o ha, h⟩
        · rintro ⟨a, ha, h⟩
          rcases List.mem_cons.mp ha with rfl | ha'
          · exact absurd h hnb
          · exact ⟨a, ha', h⟩
      · have hbp : blocksPath x1 y1 x2 y2 r (o.getD 0 0) (o.getD 1 0) :=
          (obstructedBy_eq_true_iff x1 y1 x2 y2 r o h2).mp hb
        exact iff_of_true (by simp) ⟨o, List.mem_cons_self o rest, hbp⟩

lemma isPathObstructed_eq_false_of (x1 y1 x2 y2 r : ℝ) (obstacles : List (List ℝ))
    (hwf : ∀ o ∈ obstacles, 2 ≤ o.length)
    (hno : ¬ ∃ o ∈ obstacles, blocksPath x1 y1 x2 y2 r (o.getD 0 0) (o.getD 1 0)) :
    isPathObstructed x1 y1 x2 y2 obstacles r = some false := by
  obtain ⟨b, hb⟩ := Option.isSome_iff_exists.mp
    (isPathObstructed_isSome x1 y1 x2 y2 r obstacles hwf)
  cases b
  · exact hb
  · exact absurd ((isPathObstructed_eq_true_iff x1 y1 x2 y2 r obstacles hwf).mp hb) hno

/-! ### Claim theorems: obstruction detector -/

/-- C3: `isPathObstructed` returns true exactly when some obstacle in the
list, not exactly coordinate-equal to the start or the end, has absolute
perpendicular distance to the infinite line strictly below the radius and
distance from the start strictly below the start-to-end distance; in
particular a path with no obstacle within the radius and between the
endpoints is reported free, while an obstacle behind the start — outside
the true segment span — can still be classified as obstructing. -/
theorem C3_isPathObstructed_characterisation :
    (∀ x1 y1 x2 y2 r : ℝ, ∀ obstacles : List (List ℝ),
      (∀ o ∈ obstacles, 2 ≤ o.length) →
      (isPathObstructed x1 y1 x2 y2 obstacles r = some true ↔
        ∃ o ∈ obstacles, blocksPath x1 y1 x2 y2 r (o.getD 0 0) (o.getD 1 0))) ∧
    (∀ x1 y1 x2 y2 r : ℝ, ∀ obstacles : List (List ℝ),
      (∀ o ∈ obstacles, 2 ≤ o.length) →
      (∀ o ∈ obstacles,
        ¬(|dis (x2 - x1) (y2 - y1) x1 y1 (o.getD 0 0) (o.getD 1 0)| < r ∧
          mag (o.getD 0 0 - x1) (o.getD 1 0 - y1) < mag (x2 - x1) (y2 - y1))) →
      isPathObstructed x1 y1 x2 y2 obstacles r = some false) ∧
    isPathObstructed 0 0 10 0 [[-5, 0]] 1 = some true := by
  refine ⟨fun x1 y1 x2 y2 r obstacles hwf =>
      isPathObstructed_eq_true_iff x1 y1 x2 y2 r obstacles hwf,
    fun x1 y1 x2 y2 r obstacles hwf hno =>
      isPathObstructed_eq_false_of x1 y1 x2 y2 r obstacles hwf ?_, ?_⟩
  · rintro ⟨o, ho, hbp⟩
    exact hno o ho ⟨hbp.2.1, hbp.2.2⟩
  · rw [isPathObstructed_cons, obstructedBy_cons_cons,
      if_neg (by norm_num), if_pos (by norm_num [dis]),
      if_pos (mag_lt_mag (by norm_num))]
    rfl

/-- Witness for C3 at concrete inputs: part 1 instantiated on an obstacle
list containing `[3, 4]`, and part 2 on an obstacle far from the path. -/
theorem C3_witness :
    (isPathObstructed 0 0 10 0 [[3, 4]] 1 = some true ↔
      ∃ o ∈ [[(3 : ℝ), 4]], blocksPath 0 0 10 0 1 (o.getD 0 0) (o.getD 1 0)) ∧
    isPathObstructed 0 0 10 0 [[50, 50]] 1 = some false := by
  constructor
  · exact C3_isPathObstructed_characterisation.1 0 0 10 0 1 [[3, 4]] (by norm_num)
  · refine C3_isPathObstructed_characterisation.2.1 0 0 10 0 1 [[50, 50]] (by norm_num) ?_
    intro o ho
    rcases List.mem_singleton.mp ho with rfl
    rintro ⟨-, hmag⟩
    exact absurd hmag (not_lt.mpr (mag_le_mag (by norm_num)))

/-- C7: an obstacle exactly coordinate-equal to the start or end endpoint
never causes `isPathObstructed` to report obstruction (prepending such an
obstacle leaves the result unchanged), and the coincidence test is exact
equality rather than a tolerance: any non-coincident obstacle — however
close to an endpoint — that meets the two distance tests does trigger
obstruction. -/
theorem C7_endpoint_coincidence :
    (∀ x1 y1 x2 y2 r : ℝ, ∀ o : List ℝ, ∀ rest : List (List ℝ),
      2 ≤ o.length →
      ((o.getD 0 0 = x2 ∧ o.getD 1 0 = y2) ∨ (o.getD 0 0 = x1 ∧ o.getD 1 0 = y1)) →
      isPathObstructed x1 y1 x2 y2 (o :: rest) r =
        isPathObstructed x1 y1 x2 y2 rest r) ∧
    (∀ x1 y1 x2 y2 r : ℝ, ∀ o : List ℝ, ∀ rest : List (List ℝ),
      2 ≤ o.length → blocksPath x1 y1 x2 y2 r (o.getD 0 0) (o.getD 1 0) →
      isPathObstructed x1 y1 x2 y2 (o :: rest) r = some true) := by
  constructor
  · intro x1 y1 x2 y2 r o rest h2 hco
    match o, h2 with
    | a :: b :: t, _ =>
      simp only [List.getD_cons_zero, List.getD_cons_succ] at hco
      rw [isPathObstructed_cons, obstructedBy_cons_cons, if_pos hco]
      rfl
  · intro x1 y1 x2 y2 r o rest h2 hbp
    match o, h2 with
    | a :: b :: t, _ =>
      simp only [List.getD_cons_zero, List.getD_cons_succ] at hbp
      rw [isPathObstructed_cons, obstructedBy_cons_cons,
        if_neg hbp.1, if_pos hbp.2.1, if_pos hbp.2.2]
      rfl

/-- Witness for C7 at concrete inputs: an obstacle exactly at the start is
skipped, while an obstacle at distance `1/1000` from the start is not. -/
theorem C7_witness :
    isPathObstructed 0 0 10 0 [[0, 0]] 1 = isPathObstructed 0 0 10 0 [] 1 ∧
    isPathObstructed 0 0 10 0 [[1 / 1000, 0]] 1 = some true := by
  constructor
  · exact C7_endpoint_coincidence.1 0 0 10 0 1 [0, 0] [] (by norm_num)
      (Or.inr ⟨by norm_num, by norm_num⟩)
  · exact C7_endpoint_coincidence.2 0 0 10 0 1 [1 / 1000, 0] [] (by norm_num)
      ⟨by norm_num, by norm_num [dis], mag_lt_mag (by norm_num)⟩

/-! ### Claim theorems: determinism and the terminal failure mode -/

/-- C9: planning is deterministic — with identical inputs, the candidate
set computed by `selectClearShots` and the outcome of the selection and
execution flow are identical across invocations; both are pure functions
of their arguments. -/
theorem C9_planning_deterministic :
    ∀ (cueballs holes childballs : List (List ℝ)) (r : ℝ)
      (cb : List (List ℝ)) (vs : List (List ℝ × List ℝ)) (fl : List FlipShot),
      selectClearShots cueballs holes childballs r =
        selectClearShots cueballs holes childballs r ∧
      mainPlan cb vs fl = mainPlan cb vs fl :=
  fun _ _ _ _ _ _ _ => ⟨rfl, rfl⟩

/-- C6: when both the direct list and the flip list are empty, the flow
terminates with the explicit failure signal `-1` and issues no hardware
command at all. -/
theorem C6_no_feasible_shot :
    ∀ cueball : List (List ℝ), mainPlan cueball [] [] = some (-1, []) :=
  fun _ => rfl

/-! ### Totality of the planner under the well-formedness precondition -/

lemma collectM_isSome {α β : Type} (f : α → Option (List β)) (l : List α)
    (h : ∀ a ∈ l, (f a).isSome) : (collectM f l).isSome := by
  induction l with
  | nil => rfl
  | cons a rest ih =>
      obtain ⟨x, hx⟩ := Option.isSome_iff_exists.mp (h a (List.mem_cons_self a rest))
      obtain ⟨xs, hxs⟩ := Option.isSome_iff_exists.mp
        (ih (fun b hb => h b (List.mem_cons_of_mem a hb)))
      simp [collectM, hx, hxs]

lemma step1Entry_isSome (childballs : List (List ℝ)) (r : ℝ) (child hole : List ℝ)
    (hc : 2 ≤ child.length) (hh : 2 ≤ hole.length)
    (hobs : ∀ o ∈ childballs, 2 ≤ o.length) :
    (step1Entry childballs r child hole).isSome := by
  match child, hc, hole, hh with
  | c0 :: c1 :: ct, _, h0 :: h1 :: ht, _ =>
    obtain ⟨b, hb⟩ := Option.isSome_iff_exists.mp
      (isPathObstructed_isSome c0 c1 h0 h1 r childballs hobs)
    cases b <;> simp [step1Entry, hb]

lemma step2Entry_isSome (cueballs childballs : List (List ℝ)) (r : ℝ) (child hole : List ℝ)
    (hc : 2 ≤ child.length) (hh : 2 ≤ hole.length)
    (hne : cueballs ≠ []) (hcue : ∀ b ∈ cueballs, 2 ≤ b.length)
    (hobs : ∀ o ∈ childballs, 2 ≤ o.length) :
    (step2Entry cueballs childballs r child hole).isSome := by
  match cueballs, hne with
  | cue :: cuerest, _ =>
    have hcl : 2 ≤ cue.length := hcue cue (List.mem_cons_self cue cuerest)
    match child, hc, hole, hh, cue, hcl with
    | c0 :: c1 :: ct, _, h0 :: h1 :: ht, _, m0 :: m1 :: mt, _ =>
      obtain ⟨b, hb⟩ := Option.isSome_iff_exists.mp
        (isPathObstructed_isSome c0 c1 m0 m1 r childballs hobs)
      cases b
      · by_cases hang : |Real.arccos (COS_VAL (c0 - m0) (c1 - m1) (h0 - c0) (h1 - c1))| *
            180 / 3.1415926 < (110 : ℝ)
        · simp [step2Entry, hb, hang]
        · simp [step2Entry, hb, hang]
      · simp [step2Entry, hb]

lemma step1_isSome (holes childballs : List (List ℝ)) (r : ℝ)
    (hh : ∀ b ∈ holes, 2 ≤ b.length) (hc : ∀ b ∈ childballs, 2 ≤ b.length) :
    (step1 holes childballs r).isSome :=
  collectM_isSome _ _ (fun child hchild =>
    collectM_isSome _ _ (fun hole hhole =>
      step1Entry_isSome childballs r child hole (hc child hchild) (hh hole hhole) hc))

lemma step2_isSome (cueballs holes childballs : List (List ℝ)) (r : ℝ)
    (hne : cueballs ≠ []) (hcue : ∀ b ∈ cueballs, 2 ≤ b.length)
    (hh : ∀ b ∈ holes, 2 ≤ b.length) (hc : ∀ b ∈ childballs, 2 ≤ b.length) :
    (step2 cueballs holes childballs r).isSome :=
  collectM_isSome _ _ (fun child hchild =>
    collectM_isSome _ _ (fun hole hhole =>
      step2Entry_isSome cueballs childballs r child hole (hc child hchild)
        (hh hole hhole) hne hcue hc))

lemma selectClearShots_isSome (cueballs holes childballs : List (List ℝ)) (r : ℝ)
    (hne : cueballs ≠ []) (hcue : ∀ b ∈ cueballs, 2 ≤ b.length)
    (hh : ∀ b ∈ holes, 2 ≤ b.length) (hc : ∀ b ∈ childballs, 2 ≤ b.length) :
    (selectClearShots cueballs holes childballs r).isSome := by
  obtain ⟨chr, hchr⟩ := Option.isSome_iff_exists.mp (step1_isSome holes childballs r hh hc)
  obtain ⟨ccr, hccr⟩ := Option.isSome_iff_exists.mp
    (step2_isSome cueballs holes childballs r hne hcue hh hc)
  simp [selectClearShots, hchr, hccr]

/-- C10: under the precondition that the cue-ball list is non-empty and
every coordinate vector has at least two entries, every element access of
`isPathObstructed` and `selectClearShots` is in bounds and both functions
return a value (the `none`/out-of-bounds branch of the embedding is not
reached); without the precondition that branch is reachable, as the final
conjunct shows on an empty cue-ball list. -/
theorem C10_totality :
    (∀ x1 y1 x2 y2 r : ℝ, ∀ obstacles : List (List ℝ),
      (∀ o ∈ obstacles, 2 ≤ o.length) →
      (isPathObstructed x1 y1 x2 y2 obstacles r).isSome) ∧
    (∀ (cueballs holes childballs : List (List ℝ)) (r : ℝ),
      cueballs ≠ [] → (∀ b ∈ cueballs, 2 ≤ b.length) →
      (∀ b ∈ holes, 2 ≤ b.length) → (∀ b ∈ childballs, 2 ≤ b.length) →
      (selectClearShots cueballs holes childballs r).isSome) ∧
    selectClearShots [] [[0, 0]] [[1, 1]] 5 = none := by
  refine ⟨fun x1 y1 x2 y2 r obstacles hwf =>
      isPathObstructed_isSome x1 y1 x2 y2 r obstacles hwf,
    fun cueballs holes childballs r hne hcue hh hc =>
      selectClearShots_isSome cueballs holes childballs r hne hcue hh hc, ?_⟩
  norm_num [selectClearShots, step1, step2, collectM, step1Entry, step2Entry,
    isPathObstructed_cons, isPathObstructed_nil, obstructedBy_cons_cons]

/-- Witness for C10 at concrete inputs satisfying the precondition. -/
theorem C10_witness :
    (isPathObstructed 0 0 10 0 [[3, 4]] 15).isSome ∧
    (selectClearShots [[0, 0]] [[200, 0]] [[100, 0]] 15).isSome := by
  constructor
  · exact C10_totality.1 0 0 10 0 15 [[3, 4]] (by norm_num)
  · exact C10_totality.2.1 [[0, 0]] [[200, 0]] [[100, 0]] 15 (by simp)
      (by norm_num) (by norm_num) (by norm_num)

/-! ### The cue=(0,0), object ball=(100,0), pocket=(200,0), radius 15
scenario of the spec's testable properties -/

lemma scenario_path_ball_hole :
    isPathObstructed 100 0 200 0 [[100, 0]] 15 = some false := by
  rw [isPathObstructed_cons, obstructedBy_cons_cons, if_pos (Or.inr ⟨rfl, rfl⟩)]
  rfl

lemma scenario_path_ball_cue :
    isPathObstructed 100 0 0 0 [[100, 0]] 15 = some false := by
  rw [isPathObstructed_cons, obstructedBy_cons_cons, if_pos (Or.inr ⟨rfl, rfl⟩)]
  rfl

lemma scenario_step1 :
    step1 [[200, 0]] [[100, 0]] 15 = some [([100, 0], [200, 0])] := by
  simp [step1, collectM, step1Entry, scenario_path_ball_hole]

lemma scenario_cos : COS_VAL 100 0 100 0 = 1 := by
  have hm : mag 100 0 = 100 := mag_eq_of_sq (by norm_num) (by norm_num)
  rw [COS_VAL, hm]
  norm_num

lemma scenario_step2 :
    step2 [[0, 0]] [[200, 0]] [[100, 0]] 15 = some [([0, 0], [100, 0])] := by
  norm_num [step2, collectM, step2Entry, scenario_path_ball_cue, scenario_cos,
    Real.arccos_one]

lemma scenario_isSameB : isSameB [100, 0] [0, 0] = false := by
  have hne : ¬ ∀ i, i < ([100, 0] : List ℝ).length →
      |([100, 0] : List ℝ).getD i 0 - ([0, 0] : List ℝ).getD i 0| ≤ 1 / 1000000000 := by
    intro h
    have h0 := h 0 (by norm_num)
    simp at h0
    norm_num at h0
  unfold isSameB
  rw [if_pos (show ([100, 0] : List ℝ).length = ([0, 0] : List ℝ).length from rfl),
    if_neg hne]

lemma scenario_step3 :
    step3 [([100, 0], [200, 0])] [([0, 0], [100, 0])] = [] := by
  simp [step3, scenario_isSameB]

lemma scenario_selectClearShots :
    selectClearShots [[0, 0]] [[200, 0]] [[100, 0]] 15 = some [] := by
  simp [selectClearShots, scenario_step1, scenario_step2, scenario_step3]

/-! ### Claim theorems: the matching step and the direct-shot scenario -/

/-- C1: REFUTED by the code. At cue (0,0), object ball (100,0), pocket
(200,0), radius 15, step 1 contains the pair `([100,0], [200,0])` and
step 2 contains the compatible entry `([0,0], [100,0])` for the same
object ball `[100,0]`, yet `selectClearShots` returns the empty list: the
matching step compares the object ball's coordinates against the first
component of the step-2 entry — the stored cue-ball coordinates — instead
of keying on the object ball's identity. -/
theorem C1_matching_drops_valid_pair :
    step1 [[200, 0]] [[100, 0]] 15 = some [([100, 0], [200, 0])] ∧
    step2 [[0, 0]] [[200, 0]] [[100, 0]] 15 = some [([0, 0], [100, 0])] ∧
    selectClearShots [[0, 0]] [[200, 0]] [[100, 0]] 15 = some [] :=
  ⟨scenario_step1, scenario_step2, scenario_selectClearShots⟩

/-- C2: REFUTED by the code. In the spec's scenario — cue (0,0), one
object ball (100,0), one pocket (200,0), radius 15 — the planner produces
no direct candidate at all (`selectClearShots` returns the empty list),
so no direct shot with totalDistance 200 is selected; with no flip
candidates either, the flow then reports the failure signal instead of
striking. -/
theorem C2_scenario_produces_no_candidate :
    selectClearShots [[0, 0]] [[200, 0]] [[100, 0]] 15 = some [] ∧
    mainPlan [[0, 0]] [] [] = some (-1, []) :=
  ⟨scenario_selectClearShots, rfl⟩

/-! ### Claim theorems: the strike-angle filter -/

/-- C8: for an object ball and pocket whose child-to-cue path is
unobstructed, the step-2 loop body keeps the pair exactly when the angle
between the vector from the object ball to the cue ball and the vector
from the pocket to the object ball — equal, since `COS_VAL` is invariant
under negating both vectors, to the angle the code computes from the
reversed vectors — is strictly below the 110-degree bound (degrees taken
with the code's conversion factor `180 / 3.1415926`). -/
theorem C8_strike_angle_filter :
    ∀ (cueballs childballs : List (List ℝ)) (r : ℝ) (child hole cue : List ℝ)
      (cx cy mx my hx hy : ℝ),
      child.get? 0 = some cx → child.get? 1 = some cy →
      cueballs.get? 0 = some cue → cue.get? 0 = some mx → cue.get? 1 = some my →
      hole.get? 0 = some hx → hole.get? 1 = some hy →
      isPathObstructed cx cy mx my childballs r = some false →
      (step2Entry cueballs childballs r child hole = some [(cue, child)] ↔
        |Real.arccos (COS_VAL (mx - cx) (my - cy) (cx - hx) (cy - hy))| * 180 /
          3.1415926 < 110) := by
  intro cueballs childballs r child hole cue cx cy mx my hx hy
  intro h1 h2 h3 h4 h5 h6 h7 h8
  have hsym : COS_VAL (cx - mx) (cy - my) (hx - cx) (hy - cy) =
      COS_VAL (mx - cx) (my - cy) (cx - hx) (cy - hy) := by
    rw [← COS_VAL_neg_neg (mx - cx) (my - cy) (cx - hx) (cy - hy), neg_sub, neg_sub,
      neg_sub, neg_sub]
  have hred : step2Entry cueballs childballs r child hole =
      if |Real.arccos (COS_VAL (cx - mx) (cy - my) (hx - cx) (hy - cy))| * 180 /
          3.1415926 < 110 then some [(cue, child)] else some [] := by
    simp only [step2Entry, h1, h2, h3, h4, h5, h6, h7, h8, Option.bind_eq_bind,
      Option.pure_def, Option.some_bind]
    rfl
  rw [hred, hsym]
  split_ifs with h
  · exact iff_of_true rfl h
  · exact iff_of_false (by simp) h

/-- Witness for C8 at concrete inputs: the scenario object ball, its pocket
and the cue ball, whose child-to-cue path is unobstructed. -/
theorem C8_witness :
    step2Entry [[0, 0]] [[100, 0]] 15 [100, 0] [200, 0] = some [([0, 0], [100, 0])] ↔
      |Real.arccos (COS_VAL (0 - 100) (0 - 0) (100 - 200) (0 - 0))| * 180 /
        3.1415926 < 110 :=
  C8_strike_angle_filter [[0, 0]] [[100, 0]] 15 [100, 0] [200, 0] [0, 0]
    100 0 0 0 200 0 rfl rfl rfl rfl rfl rfl rfl scenario_path_ball_cue

/-! ### The selection loops of main.cpp -/

/-- Pure form of the strict-improvement scan shared by the two selection
loops of main.cpp: the running best is replaced exactly when a candidate
scores strictly lower. -/
def pickLoopP {α : Type} (d : α → ℝ) : List α → α → α
  | [], best => best
  | x :: rest, best =>
      if d x < d best then pickLoopP d rest x else pickLoopP d rest best

lemma pickLoopP_nil {α : Type} (d : α → ℝ) (b : α) : pickLoopP d [] b = b := rfl

lemma pickLoopP_cons {α : Type} (d : α → ℝ) (x : α) (rest : List α) (b : α) :
    pickLoopP d (x :: rest) b =
      if d x < d b then pickLoopP d rest x else pickLoopP d rest b := rfl

lemma pickLoopP_le {α : Type} (d : α → ℝ) (l : List α) (b : α) :
    d (pickLoopP d l b) ≤ d b := by
  induction l generalizing b with
  | nil => exact le_refl _
  | cons x rest ih =>
      rw [pickLoopP_cons]
      split_ifs with h
      · exact le_trans (ih x) (le_of_lt h)
      · exact ih b

/-- The strict-improvement scan returns the first minimum: the input list
splits around the result, every earlier element scoring strictly higher
and every later element scoring at least as high. -/
lemma pickLoopP_spec {α : Type} (d : α → ℝ) (l : List α) (b : α) :
    ∃ l1 l2, b :: l = l1 ++ pickLoopP d l b :: l2 ∧
      (∀ x ∈ l1, d (pickLoopP d l b) < d x) ∧
      (∀ x ∈ l2, d (pickLoopP d l b) ≤ d x) := by
  induction l generalizing b with
  | nil => exact ⟨[], [], rfl, by simp, by simp⟩
  | cons x rest ih =>
      rw [pickLoopP_cons]
      split_ifs with h
      · obtain ⟨l1, l2, heq, h1, h2⟩ := ih x
        refine ⟨b :: l1, l2, ?_, ?_, h2⟩
        · rw [List.cons_append, ← heq]
        · intro y hy
          rcases List.mem_cons.mp hy with rfl | hy'
          · exact lt_of_le_of_lt (pickLoopP_le d rest x) h
          · exact h1 y hy'
      · obtain ⟨l1, l2, heq, h1, h2⟩ := ih b
        match l1, heq with
        | [], heq =>
            have hb : pickLoopP d rest b = b := by
              have := (List.cons.injEq b rest (pickLoopP d rest b) l2).mp heq
              exact this.1.symm
            have hrest : rest = l2 := by
              have := (List.cons.injEq b rest (pickLoopP d rest b) l2).mp heq
              exact this.2
            refine ⟨[], x :: rest, by simp [hb], by simp, ?_⟩
            intro y hy
            rcases List.mem_cons.mp hy with rfl | hy'
            · rw [hb]; exact not_lt.mp h
            · rw [hrest] at hy'
              exact h2 y hy'
        | a :: t, heq =>
            obtain ⟨hba, hrest⟩ := (List.cons.injEq b rest a _).mp heq
            have h1b : ∀ z ∈ b :: t, d (pickLoopP d rest b) < d z := by
              intro z hz
              rcases List.mem_cons.mp hz with rfl | hz'
              · have := h1 a (List.mem_cons_self a t)
                rwa [← hba] at this
              · exact h1 z (List.mem_cons_of_mem a hz')
            refine ⟨b :: x :: t, l2, ?_, ?_, h2⟩
            · conv_lhs => rw [hrest]
              rfl
            · intro y hy
              rcases List.mem_cons.mp hy with rfl | hy'
              · exact h1b y (List.mem_cons_self y t)
              · rcases List.mem_cons.mp hy' with rfl | hy''
                · exact lt_of_lt_of_le (h1b b (List.mem_cons_self b t)) (not_lt.mp h)
                · exact h1b y (List.mem_cons_of_mem b hy'')

lemma selectFlipLoop_nil (b : FlipShot) (td : ℝ) : selectFlipLoop [] b td = (b, td) := rfl

lemma selectFlipLoop_cons (fs : FlipShot) (rest : List FlipShot) (b : FlipShot) (td : ℝ) :
    selectFlipLoop (fs :: rest) b td =
      if fs.total_distance < b.total_distance then
        selectFlipLoop rest fs fs.total_distance
      else selectFlipLoop rest b td := rfl

lemma selectFlipLoop_fst (l : List FlipShot) (b : FlipShot) (td : ℝ) :
    (selectFlipLoop l b td).1 = pickLoopP FlipShot.total_distance l b := by
  induction l generalizing b td with
  | nil => rfl
  | cons fs rest ih =>
      rw [selectFlipLoop_cons, pickLoopP_cons]
      split_ifs with h
      · exact ih fs fs.total_distance
      · exact ih b td

lemma selectDirectLoop_nil (cueball : List (List ℝ)) (acc : Option (List ℝ × List ℝ × ℝ)) :
    selectDirectLoop cueball [] acc = some acc := rfl

lemma selectDirectLoop_cons_none (cueball : List (List ℝ)) (s : List ℝ × List ℝ)
    (rest : List (List ℝ × List ℝ)) :
    selectDirectLoop cueball (s :: rest) none =
      (shotDist cueball s).bind
        (fun d => selectDirectLoop cueball rest (some (s.1, s.2, d))) := rfl

lemma selectDirectLoop_cons_some (cueball : List (List ℝ)) (s : List ℝ × List ℝ)
    (rest : List (List ℝ × List ℝ)) (tb th : List ℝ) (md : ℝ) :
    selectDirectLoop cueball (s :: rest) (some (tb, th, md)) =
      (shotDist cueball s).bind
        (fun d =>
          if d < md then selectDirectLoop cueball rest (some (s.1, s.2, d))
          else selectDirectLoop cueball rest (some (tb, th, md))) := rfl

/-- The distance value of a direct candidate, extracted from `shotDist`. -/
def dval (cueball : List (List ℝ)) (s : List ℝ × List ℝ) : ℝ :=
  (shotDist cueball s).getD 0

lemma dval_eq {cueball : List (List ℝ)} {s : List ℝ × List ℝ} {v : ℝ}
    (h : shotDist cueball s = some v) : dval cueball s = v := by
  rw [dval, h]; rfl

lemma selectDirectLoop_eq_pickLoopP (cueball : List (List ℝ))
    (shots : List (List ℝ × List ℝ)) (hwf : ∀ s ∈ shots, (shotDist cueball s).isSome)
    (b : List ℝ × List ℝ) (db : ℝ) (hb : shotDist cueball b = some db) :
    selectDirectLoop cueball shots (some (b.1, b.2, db)) =
      some (some ((pickLoopP (dval cueball) shots b).1,
        (pickLoopP (dval cueball) shots b).2,
        dval cueball (pickLoopP (dval cueball) shots b))) := by
  induction shots generalizing b db with
  | nil =>
      rw [selectDirectLoop_nil, pickLoopP_nil, dval_eq hb]
  | cons s rest ih =>
      obtain ⟨ds, hds⟩ := Option.isSome_iff_exists.mp (hwf s (List.mem_cons_self s rest))
      have hwfr : ∀ x ∈ rest, (shotDist cueball x).isSome :=
        fun x hx => hwf x (List.mem_cons_of_mem s hx)
      rw [selectDirectLoop_cons_some, hds, Option.some_bind, pickLoopP_cons,
        dval_eq hds, dval_eq hb]
      by_cases h : ds < db
      · rw [if_pos h, if_pos h]
        exact ih hwfr s ds hds
      · rw [if_neg h, if_neg h]
        exact ih hwfr b db hb

/-! ### Claim theorems: best-candidate selection -/

/-- C4: the selector picks the candidate with minimum total distance,
first-found winning ties. The direct loop returns a candidate of the list
whose distance is strictly below every earlier candidate's distance and
at most every later candidate's; direct candidates are preferred in that
the flip list is never inspected when the direct list is non-empty; and
the flip loop likewise returns the first minimum of the flip list. -/
theorem C4_selector_minimum :
    (∀ (cueball : List (List ℝ)) (shots : List (List ℝ × List ℝ)),
      shots ≠ [] → (∀ s ∈ shots, (shotDist cueball s).isSome) →
      ∃ tb th td l1 l2,
        selectDirectLoop cueball shots none = some (some (tb, th, td)) ∧
        shots = l1 ++ (tb, th) :: l2 ∧
        shotDist cueball (tb, th) = some td ∧
        (∀ x ∈ l1, ∀ dx, shotDist cueball x = some dx → td < dx) ∧
        (∀ x ∈ l2, ∀ dx, shotDist cueball x = some dx → td ≤ dx)) ∧
    (∀ (cueball : List (List ℝ)) (shots : List (List ℝ × List ℝ))
      (flips flips' : List FlipShot), shots ≠ [] →
      mainPlan cueball shots flips = mainPlan cueball shots flips') ∧
    (∀ (flips : List FlipShot) (f0 : FlipShot) (rest : List FlipShot),
      flips = f0 :: rest →
      ∃ l1 l2, flips = l1 ++ (selectFlipLoop flips f0 0).1 :: l2 ∧
        (∀ x ∈ l1, (selectFlipLoop flips f0 0).1.total_distance < x.total_distance) ∧
        (∀ x ∈ l2, (selectFlipLoop flips f0 0).1.total_distance ≤ x.total_distance)) := by
  refine ⟨?_, ?_, ?_⟩
  · intro cueball shots hne hwf
    match shots, hne with
    | s0 :: rest, _ =>
      obtain ⟨d0, hd0⟩ := Option.isSome_iff_exists.mp (hwf s0 (List.mem_cons_self s0 rest))
      have hwfr : ∀ x ∈ rest, (shotDist cueball x).isSome :=
        fun x hx => hwf x (List.mem_cons_of_mem s0 hx)
      set p := pickLoopP (dval cueball) rest s0 with hp
      obtain ⟨l1, l2, heq, h1, h2⟩ := pickLoopP_spec (dval cueball) rest s0
      have hloop : selectDirectLoop cueball (s0 :: rest) none =
          some (some (p.1, p.2, dval cueball p)) := by
        rw [selectDirectLoop_cons_none, hd0, Option.some_bind]
        exact selectDirectLoop_eq_pickLoopP cueball rest hwfr s0 d0 hd0
      have hpmem : p ∈ s0 :: rest := by
        rw [heq]
        exact List.mem_append_right l1 (List.mem_cons_self p l2)
      obtain ⟨dp, hdp⟩ := Option.isSome_iff_exists.mp (hwf p hpmem)
      refine ⟨p.1, p.2, dval cueball p, l1, l2, hloop, heq, ?_, ?_, ?_⟩
      · rw [dval_eq hdp]; exact hdp
      · intro x hx dx hdx
        have := h1 x hx
        rw [dval_eq hdx] at this
        exact this
      · intro x hx dx hdx
        have := h2 x hx
        rw [dval_eq hdx] at this
        exact this
  · intro cueball shots flips flips' hne
    match shots, hne with
    | _ :: _, _ => rfl
  · intro flips f0 rest hflips
    subst hflips
    have hfst : (selectFlipLoop (f0 :: rest) f0 0).1 =
        pickLoopP FlipShot.total_distance rest f0 := by
      rw [selectFlipLoop_cons, if_neg (lt_irrefl _), selectFlipLoop_fst]
    obtain ⟨l1, l2, heq, h1, h2⟩ := pickLoopP_spec FlipShot.total_distance rest f0
    refine ⟨l1, l2, ?_, ?_, ?_⟩
    · rw [hfst]; exact heq
    · intro x hx; rw [hfst]; exact h1 x hx
    · intro x hx; rw [hfst]; exact h2 x hx

/-- Witness for C4 at concrete inputs: a one-element direct list, a
non-empty direct list with two different flip lists, and a one-element
flip list. -/
theorem C4_witness :
    (∃ tb th td l1 l2,
      selectDirectLoop [[0, 0]] [([3, 4], [0, 0])] none = some (some (tb, th, td)) ∧
      [(([3, 4] : List ℝ), ([0, 0] : List ℝ))] = l1 ++ (tb, th) :: l2 ∧
      shotDist [[0, 0]] (tb, th) = some td ∧
      (∀ x ∈ l1, ∀ dx, shotDist [[0, 0]] x = some dx → td < dx) ∧
      (∀ x ∈ l2, ∀ dx, shotDist [[0, 0]] x = some dx → td ≤ dx)) ∧
    mainPlan [[0, 0]] [([3, 4], [0, 0])] [] =
      mainPlan [[0, 0]] [([3, 4], [0, 0])] [⟨[1], [2], 5⟩] ∧
    (∃ l1 l2, [(⟨[1], [2], 5⟩ : FlipShot)] =
        l1 ++ (selectFlipLoop [⟨[1], [2], 5⟩] ⟨[1], [2], 5⟩ 0).1 :: l2 ∧
      (∀ x ∈ l1, (selectFlipLoop [(⟨[1], [2], 5⟩ : FlipShot)] ⟨[1], [2], 5⟩ 0).1.total_distance <
        x.total_distance) ∧
      (∀ x ∈ l2, (selectFlipLoop [(⟨[1], [2], 5⟩ : FlipShot)] ⟨[1], [2], 5⟩ 0).1.total_distance ≤
        x.total_distance)) := by
  refine ⟨?_, ?_, ?_⟩
  · exact C4_selector_minimum.1 [[0, 0]] [([3, 4], [0, 0])] (by simp)
      (by intro s hs; rcases List.mem_singleton.mp hs with rfl; simp [shotDist])
  · exact C4_selector_minimum.2.1 [[0, 0]] [([3, 4], [0, 0])] [] [⟨[1], [2], 5⟩] (by simp)
  · exact C4_selector_minimum.2.2 [⟨[1], [2], 5⟩] ⟨[1], [2], 5⟩ [] rfl

/-- C5: REFUTED by the code. With no direct shot and exactly one flip
candidate of path length 100, the selected candidate is that flip shot,
but the distance carried into the move and strike commands is the initial
0, not 100: `total_distance` is updated only on a strict improvement over
`flip_shots[0]`, which never fires when `flip_shots[0]` itself is the
minimum. -/
theorem C5_flip_distance_not_reported :
    mainPlan [[0, 0]] [] [⟨[100, 0], [200, 0], 100⟩] =
      some (0, [HWCmd.move (hitPose 0 0 100 0 200 0) 0, HWCmd.strike 0,
        HWCmd.home originPose]) ∧ (0 : ℝ) ≠ 100 := by
  constructor
  · show (let bt := selectFlipLoop [⟨[100, 0], [200, 0], 100⟩] ⟨[100, 0], [200, 0], 100⟩ 0
      strikeStage [[0, 0]] bt.1.target_coords bt.1.hole_coords bt.2) = _
    rw [selectFlipLoop_cons, if_neg (lt_irrefl _), selectFlipLoop_nil]
    rfl
  · norm_num

end

end Billiards
